import Mathlib

/-!
# Verification of the nemos basis subsystem

Shallow embedding of the raised-cosine basis generators
(`src/nemos/basis/_raised_cosine_basis.py`), the scikit-learn transformer
adapter (`src/nemos/basis/_transformer_basis.py`) and the structured feature
container, together with proofs of the specified properties.

Real-valued numeric code is modelled over `ℝ`; parameter-validation code,
which manipulates Python floats through exact comparisons and tolerance
checks, is modelled over `ℚ` (Python floats are rationals) so that the
validation predicates stay decidable.
-/

open Real

/-! ## Python error model

Errors are modelled as structured values: each constructor corresponds to one
`raise` site and carries the data interpolated into the message, so that
claims about "a value error naming expected vs actual" are statements about
the carried data.  `PyErr.kind` recovers the Python exception class.
-/

inductive PyErrKind where
  | valueError
  | typeError
  | runtimeError
  | attributeError
  | indexError
deriving DecidableEq

inductive PyErr where
  /-- `ValueError` from `RaisedCosineBasisLinear._check_width`, reporting `2*width`. -/
  | invalidWidth (twoWidth : ℚ)
  /-- `ValueError` from `RaisedCosineBasisLog._check_time_scaling`, reporting the value. -/
  | invalidTimeScaling (ts : ℚ)
  /-- `RuntimeError` from `TransformerBasis._check_initialized`. -/
  | notInitialized
  /-- `ValueError` from `TransformerBasis._check_input` when `X.ndim != 2`. -/
  | notTwoDimensional (shape : List ℕ)
  /-- `ValueError` from `TransformerBasis._check_input` when the input has no `ndim`. -/
  | inputNotArray
  /-- `ValueError` from `TransformerBasis._check_input`: expected vs actual column count. -/
  | columnMismatch (expected actual : ℕ)
  /-- `AttributeError`: the `X/y` sample-mismatch branch of `_check_input` evaluates
  the f-string `X.shpae[0]` (a typo for `X.shape`) while building its message,
  so the attribute lookup fails before the intended `ValueError` is constructed. -/
  | missingAttribute (attrName : String)
  /-- `ValueError` from `numpy.reshape` when the element counts differ. -/
  | reshapeError (fromSize toSize : ℕ)
  /-- `IndexError` from slicing `X[:, a:b]` on an array with fewer than 2 axes. -/
  | tooManyIndices
  /-- `TypeError` from `Basis.__pow__` on a non-integer exponent. -/
  | exponentTypeError
  /-- `ValueError` from `Basis.__pow__` on an integer exponent `< 1`. -/
  | exponentValueError (k : ℤ)
  /-- `ValueError` from `FeaturePytree.__setitem__` on a non-array value. -/
  | pytreeNotArray
  /-- `ValueError` from `FeaturePytree.__setitem__`: expected vs actual leading length. -/
  | pytreeLengthMismatch (expected actual : ℕ)
deriving DecidableEq

def PyErr.kind : PyErr → PyErrKind
  | .invalidWidth _ => .valueError
  | .invalidTimeScaling _ => .valueError
  | .notInitialized => .runtimeError
  | .notTwoDimensional _ => .valueError
  | .inputNotArray => .valueError
  | .columnMismatch _ _ => .valueError
  | .missingAttribute _ => .attributeError
  | .reshapeError _ _ => .valueError
  | .tooManyIndices => .indexError
  | .exponentTypeError => .typeError
  | .exponentValueError _ => .valueError
  | .pytreeNotArray => .valueError
  | .pytreeLengthMismatch _ _ => .valueError

/-- The message text of each error, as formatted by the corresponding `raise`
site in the source (numeric fields abstracted by their decimal rendering). -/
def PyErr.message : PyErr → String
  | .invalidWidth tw =>
      "Invalid raised cosine width. 2*width must be a positive integer, 2*width = "
        ++ toString tw ++ " instead!"
  | .invalidTimeScaling ts =>
      "Only strictly positive time_scaling are allowed, " ++ toString ts
        ++ " provided instead."
  | .notInitialized =>
      "Cannot initialize TransformerBasis: the provided basis has no defined input shape. "
        ++ "Please call `set_input_shape` on the basis before calling `fit`, `transform`, or "
        ++ "`fit_transform`."
  | .notTwoDimensional s =>
      "X must be 2-dimensional, shape (n_samples, n_features). The provided X has shape "
        ++ toString s ++ " instead."
  | .inputNotArray => "The input must be a 2-dimensional array."
  | .columnMismatch e a =>
      "Input mismatch: expected " ++ toString e ++ " inputs, but got " ++ toString a
        ++ " columns in X.\nTo modify the required number of inputs, call `set_input_shape` "
        ++ "before using `fit` or `fit_transform`."
  | .missingAttribute n => "'numpy.ndarray' object has no attribute '" ++ n ++ "'"
  | .reshapeError a b =>
      "cannot reshape array of size " ++ toString a ++ " into size " ++ toString b
  | .tooManyIndices => "too many indices for array"
  | .exponentTypeError => "Exponent should be an integer!"
  | .exponentValueError k =>
      "Exponent should be a non-negative integer, " ++ toString k ++ " provided instead."
  | .pytreeNotArray => "All values must be arrays."
  | .pytreeLengthMismatch e a =>
      "All arrays must have the same number of time points, " ++ toString e
        ++ " expected but " ++ toString a ++ " provided."

/-- Substring search on character lists (structural recursion). -/
def listContains (pat : List Char) : List Char → Bool
  | [] => decide (pat = [])
  | c :: rest => pat.isPrefixOf (c :: rest) || listContains pat rest

/-- Whether the error message points the caller at `set_input_shape`. -/
def PyErr.mentionsSetInputShape (e : PyErr) : Bool :=
  listContains "set_input_shape".data e.message.data

/-! ## Numeric helpers shared by the basis generators -/

/-- `np.clip(x, lo, hi) = np.minimum(hi, np.maximum(lo, x))`. -/
noncomputable def npClip (x lo hi : ℝ) : ℝ := min hi (max lo x)

/-- `np.linspace(a, b, n)` at index `i` (with the default `endpoint=True`):
`a + i*(b-a)/(n-1)`. -/
noncomputable def npLinspace (a b : ℝ) (n : ℕ) (i : ℕ) : ℝ :=
  a + (b - a) * i / ((n : ℝ) - 1)

/-- Modelled from the spec: the Sample Rescaler `min_max_rescale_samples`
(its definition lives outside `src/`, in `nemos.basis._basis`) linearly maps
sample points into `[0,1]` with the supplied bounds `(b₀, b₁)`,
sending `x` to `(x - b₀)/(b₁ - b₀)`. -/
noncomputable def minMaxRescaleSamples (bounds : ℝ × ℝ) (x : ℝ) : ℝ :=
  (x - bounds.1) / (bounds.2 - bounds.1)

/-! ## Width validation (`RaisedCosineBasisLinear._check_width`)

The check is `width <= 1 or (not np.isclose(width * 2, round(2 * width)))`.
Python floats are rationals, so the round/isclose pipeline is embedded
exactly over `ℚ`: `round` is Python's round-half-to-even, `np.isclose` uses
its default tolerances `rtol = 1e-5`, `atol = 1e-8`.
-/

/-- Python's built-in `round` on a float: nearest integer, ties to even. -/
def pyRound (q : ℚ) : ℤ :=
  let f := ⌊q⌋
  let frac := q - (f : ℚ)
  if frac < 1 / 2 then f
  else if 1 / 2 < frac then f + 1
  else if f % 2 = 0 then f else f + 1

/-- `np.isclose(a, b)` with the default tolerances:
`|a - b| <= atol + rtol * |b|`, `atol = 1e-8`, `rtol = 1e-5`. -/
def npIsClose (a b : ℚ) : Bool :=
  |a - b| ≤ 1 / 100000000 + 1 / 100000 * |b|

/-- `RaisedCosineBasisLinear._check_width`: raise a `ValueError` reporting
`2*width` when `width <= 1` or `2*width` is not `np.isclose` to its Python
rounding; otherwise accept. -/
def checkWidth (width : ℚ) : Except PyErr Unit :=
  if width ≤ 1 ∨ npIsClose (width * 2) ((pyRound (2 * width) : ℤ) : ℚ) = false then
    .error (.invalidWidth (2 * width))
  else .ok ()

/-- The `width` property setter: validate, then store the new value.  On
error the stored width is untouched (the pair returns the old value). -/
def widthSet (oldWidth newWidth : ℚ) : ℚ × Option PyErr :=
  match checkWidth newWidth with
  | .error e => (oldWidth, some e)
  | .ok _ => (newWidth, none)

/-! ## `RaisedCosineBasisLinear` evaluation -/

/-- `RaisedCosineBasisLinear._compute_peaks`: `np.linspace(0, 1, n_basis_funcs)`. -/
noncomputable def RaisedCosineBasisLinear.computePeaks (nBasisFuncs : ℕ) (j : ℕ) : ℝ :=
  npLinspace 0 1 nBasisFuncs j

/-- The body of `RaisedCosineBasisLinear.__call__` after the peaks are known:
`delta = peaks[1] - peaks[0]` and entry `j` at sample `x` is
`0.5 * (cos(clip(pi * (x - peaks[j]) / (delta * width), -pi, pi)) + 1)`.
Shared with `RaisedCosineBasisLog`, which overrides `_compute_peaks`. -/
noncomputable def raisedCosineEntry (peaks : ℕ → ℝ) (width : ℝ) (x : ℝ) (j : ℕ) : ℝ :=
  0.5 * (Real.cos (npClip (π * (x - peaks j) / ((peaks 1 - peaks 0) * width)) (-π) π) + 1)

/-- `RaisedCosineBasisLinear.__call__` on one (raw) sample: since
`_rescale_samples` is `True` for the linear class, the sample is first
rescaled into `[0,1]` and the cosine formula is applied to the result. -/
noncomputable def RaisedCosineBasisLinear.callEntry (n : ℕ) (width : ℝ) (bounds : ℝ × ℝ)
    (x : ℝ) (j : ℕ) : ℝ :=
  raisedCosineEntry (RaisedCosineBasisLinear.computePeaks n) width
    (minMaxRescaleSamples bounds x) j

/-- The full basis matrix returned by `RaisedCosineBasisLinear.__call__`:
row `i` holds the `n` basis values at sample `xs[i]`. -/
noncomputable def RaisedCosineBasisLinear.callMatrix (n : ℕ) (width : ℝ) (bounds : ℝ × ℝ)
    (xs : List ℝ) : List (List ℝ) :=
  xs.map fun x => (List.range n).map (RaisedCosineBasisLinear.callEntry n width bounds x)

/-! ## `RaisedCosineBasisLog` -/

/-- `RaisedCosineBasisLog._check_time_scaling`: strictly positive values only. -/
def checkTimeScaling (timeScaling : ℚ) : Except PyErr Unit :=
  if timeScaling ≤ 0 then .error (.invalidTimeScaling timeScaling) else .ok ()

/-- `RaisedCosineBasisLog._transform_samples`: rescale the raw sample into
`[0,1]`, then log-stretch it via `log(time_scaling * x + 1) / log(time_scaling + 1)`. -/
noncomputable def RaisedCosineBasisLog.transformSamples (timeScaling : ℝ) (bounds : ℝ × ℝ)
    (x : ℝ) : ℝ :=
  Real.log (timeScaling * minMaxRescaleSamples bounds x + 1) / Real.log (timeScaling + 1)

/-- The `last_peak` computed by `RaisedCosineBasisLog._compute_peaks`:
`1 - width / (n_basis_funcs + width - 1)` when `enforce_decay_to_zero`, else `1`. -/
noncomputable def RaisedCosineBasisLog.lastPeak (n : ℕ) (width : ℝ)
    (enforceDecayToZero : Bool) : ℝ :=
  if enforceDecayToZero then 1 - width / ((n : ℝ) + width - 1) else 1

/-- `RaisedCosineBasisLog._compute_peaks`: `np.linspace(0, last_peak, n_basis_funcs)`. -/
noncomputable def RaisedCosineBasisLog.computePeaks (n : ℕ) (width : ℝ)
    (enforceDecayToZero : Bool) (j : ℕ) : ℝ :=
  npLinspace 0 (RaisedCosineBasisLog.lastPeak n width enforceDecayToZero) n j

/-- `RaisedCosineBasisLog.__call__` on one raw sample: the overridden
`_compute_peaks` is used and, because `_rescale_samples` is `False` for the
log class, the superclass call applies the cosine formula directly to the
already-transformed sample `_transform_samples(x)`. -/
noncomputable def RaisedCosineBasisLog.callEntry (n : ℕ) (width timeScaling : ℝ)
    (enforceDecayToZero : Bool) (bounds : ℝ × ℝ) (x : ℝ) (j : ℕ) : ℝ :=
  raisedCosineEntry (RaisedCosineBasisLog.computePeaks n width enforceDecayToZero) width
    (RaisedCosineBasisLog.transformSamples timeScaling bounds x) j

/-! ## Spec-side formulas (for the refinement claims)

These definitions follow the words of the specification, to be compared with
the source-derived definitions above.
-/

/-- Spec: "the peaks are the `n_basis_funcs` evenly spaced points in `[0,1]`",
i.e. peak `j` is `j/(n-1)`. -/
noncomputable def specLinearPeak (n j : ℕ) : ℝ := (j : ℝ) / ((n : ℝ) - 1)

/-- Spec: "`delta` is the spacing between consecutive peaks", `1/(n-1)`. -/
noncomputable def specLinearDelta (n : ℕ) : ℝ := 1 / ((n : ℝ) - 1)

/-- Spec: entry `(i,j)` is `0.5*(cos(clip(pi*(x_i - peak_j)/(delta*width), -pi, pi)) + 1)`. -/
noncomputable def specLinearEntry (n : ℕ) (width x : ℝ) (j : ℕ) : ℝ :=
  0.5 * (Real.cos
    (npClip (π * (x - specLinearPeak n j) / (specLinearDelta n * width)) (-π) π) + 1)

/-- Spec: the log-warp `log(time_scaling*x + 1) / log(time_scaling + 1)`
applied to the rescaled sample. -/
noncomputable def specLogWarp (timeScaling y : ℝ) : ℝ :=
  Real.log (timeScaling * y + 1) / Real.log (timeScaling + 1)

/-! ## `TransformerBasis` (shape-level model)

The claims about the transformer adapter concern its validation and error
behaviour, which depend only on array shapes, so inputs are modelled at the
shape level.
-/

/-- A numpy array, abstracted to its shape. -/
structure PyArray where
  shape : List ℕ
deriving DecidableEq

def PyArray.ndim (X : PyArray) : ℕ := X.shape.length

/-- `X.shape[0]` (the number of samples, for a 2-D array). -/
def PyArray.rows (X : PyArray) : ℕ := X.shape.headD 0

/-- `X.shape[1]` (the number of columns, for a 2-D array). -/
def PyArray.cols (X : PyArray) : ℕ := X.shape.getD 1 0

/-- One leaf component of the wrapped basis, as seen by `_unpack_inputs`:
its entry of `_n_basis_input_` and its remembered `_input_shape_`. -/
structure Component where
  nInput : ℕ
  inputShape : List ℕ
deriving DecidableEq

/-- The state of the wrapped `Basis` that the transformer consults:
`components = none` models `_n_basis_input_ is None` (input shape never
established); `some comps` holds the per-leaf input bookkeeping in
left-to-right order.  `nOutputFeatures` is the total feature width the
underlying basis produces. -/
structure BasisState where
  components : Option (List Component)
  nOutputFeatures : ℕ
deriving DecidableEq

/-- `sum(self.n_basis_input_)`: total expected column count. -/
def BasisState.sumInputs (st : BasisState) : ℕ :=
  ((st.components.getD []).map Component.nInput).sum

/-- `TransformerBasis._check_initialized`: `RuntimeError` when the wrapped
basis has `_n_basis_input_ is None`. -/
def checkInitialized (st : BasisState) : Except PyErr Unit :=
  match st.components with
  | none => .error .notInitialized
  | some _ => .ok ()

/-- `TransformerBasis._check_input`: require a 2-D `X` whose column count is
`sum(self.n_basis_input_)`; then, if `y` is given, compare sample counts.
The last branch is the `raise ValueError` whose f-string evaluates
`X.shpae[0]` (typo), so reaching it raises `AttributeError` instead. -/
def checkInput (st : BasisState) (X : PyArray) (y : Option PyArray) : Except PyErr Unit :=
  if X.ndim ≠ 2 then .error (.notTwoDimensional X.shape)
  else if X.cols ≠ st.sumInputs then .error (.columnMismatch st.sumInputs X.cols)
  else match y with
    | some yArr =>
        if yArr.rows ≠ X.rows then .error (.missingAttribute "shpae") else .ok ()
    | none => .ok ()

/-- The slice-then-reshape loop of `TransformerBasis._unpack_inputs`, with
the running column offset `cc`.  `X[:, cc : cc+n]` silently clamps to the
available columns (numpy slicing), so `take = min n (cols - cc)`; the
subsequent `np.reshape` to `(n_samples, *input_shape)` raises a `ValueError`
iff the element counts differ. -/
def unpackGo (nrows ncols : ℕ) : ℕ → List Component → Except PyErr (List PyArray)
  | _, [] => .ok []
  | cc, c :: rest =>
      if nrows * min c.nInput (ncols - cc) = nrows * c.inputShape.prod then
        (unpackGo nrows ncols (cc + c.nInput) rest).map
          (fun l => PyArray.mk (nrows :: c.inputShape) :: l)
      else
        .error (.reshapeError (nrows * min c.nInput (ncols - cc))
          (nrows * c.inputShape.prod))

/-- `TransformerBasis._unpack_inputs`: slice `X` columnwise into one block
per leaf component.  Column indexing `X[:, a:b]` on an array with fewer than
two axes raises `IndexError`. -/
def unpackInputs (st : BasisState) (X : PyArray) : Except PyErr (List PyArray) :=
  if X.ndim < 2 then .error .tooManyIndices
  else unpackGo X.rows X.cols 0 (st.components.getD [])

/-- Modelled from the spec: `Basis._compute_features` (defined outside
`src/`) evaluates the basis on the unpacked per-leaf inputs — each already
reshaped to its remembered `_input_shape_` — and returns a feature matrix
sharing their leading axis, with one column block per basis function
(`nOutputFeatures` columns in total).  It performs no validation of the
stacked column count of the original `X`. -/
def computeFeatures (st : BasisState) (inputs : List PyArray) : PyArray :=
  PyArray.mk [(inputs.headD (PyArray.mk [0])).rows, st.nOutputFeatures]

/-- `TransformerBasis.fit`: `_check_initialized`, `_check_input`, then
`setup_basis` on the unpacked inputs (kernel computation, modelled from the
spec as pure memoization that does not change the shape bookkeeping). -/
def TransformerBasis.fit (st : BasisState) (X : PyArray) (y : Option PyArray) :
    Except PyErr BasisState :=
  checkInitialized st >>= fun _ =>
  checkInput st X y >>= fun _ =>
  (unpackInputs st X).map fun _ => st

/-- `TransformerBasis.transform`: `_check_initialized`, then directly
`self._basis._compute_features(*self._unpack_inputs(X))` — note that unlike
`fit` it does not call `_check_input`. -/
def TransformerBasis.transform (st : BasisState) (X : PyArray) : Except PyErr PyArray :=
  checkInitialized st >>= fun _ =>
  (unpackInputs st X).map (computeFeatures st)

/-- `TransformerBasis.fit_transform`: `self.fit(X, y)` then `self.transform(X)`. -/
def TransformerBasis.fitTransform (st : BasisState) (X : PyArray) (y : Option PyArray) :
    Except PyErr PyArray :=
  TransformerBasis.fit st X y >>= fun st2 => TransformerBasis.transform st2 X

/-! ## Basis composition and exponentiation -/

/-- A basis, as a value: a leaf family instance (identified by its kind tag
and basis-function count) or an additive/multiplicative composite. -/
inductive BasisTree where
  | leaf (familyTag : ℕ) (nFuncs : ℕ)
  | add (a b : BasisTree)
  | mul (a b : BasisTree)
deriving DecidableEq

/-- Total number of basis functions: sums under `+`, multiplies under `*`. -/
def BasisTree.nOut : BasisTree → ℕ
  | .leaf _ n => n
  | .add a b => a.nOut + b.nOut
  | .mul a b => a.nOut * b.nOut

/-- Total input arity: each raised-cosine leaf consumes one sample array,
composites sum the arities of their operands. -/
def BasisTree.arity : BasisTree → ℕ
  | .leaf _ _ => 1
  | .add a b => a.arity + b.arity
  | .mul a b => a.arity + b.arity

/-- A Python value passed as an exponent. -/
inductive PyVal where
  | int (k : ℤ)
  | float (q : ℚ)
  | str (s : String)
deriving DecidableEq

/-- `b * b * ... * b` with `k` factors (left-associated), for `k ≥ 1`. -/
def BasisTree.powTree (b : BasisTree) : ℕ → BasisTree
  | 0 => b
  | 1 => b
  | k + 1 => .mul (b.powTree k) b

/-- Modelled from the spec: `Basis.__pow__` (defined outside `src/`) —
"Exponentiation by positive integer `k`: equivalent to multiplying the basis
by itself `k` times; fails with a type error for non-integer exponents and a
value error for exponents `< 1`." -/
def basisPow (b : BasisTree) (e : PyVal) : Except PyErr BasisTree :=
  match e with
  | .int k => if k < 1 then .error (.exponentValueError k) else .ok (b.powTree k.toNat)
  | _ => .error .exponentTypeError

/-- A `TransformerBasis`, as a value wrapping its (deep-copied) basis. -/
structure TB where
  basis : BasisTree
deriving DecidableEq

/-- `TransformerBasis.__pow__`: `TransformerBasis(self._basis ** exponent)`;
errors are those of `Basis.__pow__` (the constructor's deep copy is the
identity on values). -/
def TB.pow (t : TB) (e : PyVal) : Except PyErr TB :=
  (basisPow t.basis e).map TB.mk

/-- `TransformerBasis.__add__`: `TransformerBasis(self._basis + other._basis)`. -/
def TB.addOp (t u : TB) : TB := TB.mk (.add t.basis u.basis)

/-- `TransformerBasis.__mul__`: `TransformerBasis(self._basis * other._basis)`. -/
def TB.mulOp (t u : TB) : TB := TB.mk (.mul t.basis u.basis)

/-! ## Heap model for the frame claim

Mutation and aliasing are made explicit: each basis object's configuration
records live in a heap (`List Cfg`, address = index, allocation appends), a
basis object owns the list of addresses of its configuration records, and
mutating an object writes through one of its addresses.
`TransformerBasis.__init__` stores `copy.deepcopy(basis)`, modelled by
`allocCopies`: every record of the source object is re-allocated at a fresh
address.
-/

/-- The configuration record of one basis node (hyperparameters). -/
structure Cfg where
  nBasisFuncs : ℕ
  width : ℚ
  label : String
deriving DecidableEq

/-- A basis object in the heap: the addresses of the configuration records
it owns, in left-to-right leaf order. -/
structure Obj where
  ids : List ℕ
deriving DecidableEq

/-- `copy.deepcopy`: append a fresh copy of every record reachable from the
given addresses, returning the extended heap and the fresh addresses. -/
def allocCopies (h : List Cfg) : List ℕ → List Cfg × List ℕ
  | [] => (h, [])
  | a :: rest =>
      ((allocCopies (h ++ [h.getD a (Cfg.mk 0 0 "")]) rest).1,
       h.length :: (allocCopies (h ++ [h.getD a (Cfg.mk 0 0 "")]) rest).2)

/-- `TransformerBasis.__init__`: wrap a deep copy of the given basis object. -/
def deepcopyObj (h : List Cfg) (o : Obj) : List Cfg × Obj :=
  ((allocCopies h o.ids).1, Obj.mk (allocCopies h o.ids).2)

/-- Modelled from the spec: `Basis.__add__` / `Basis.__mul__` (defined
outside `src/`) "must not mutate either operand, producing a new composite
that independently owns ... copies of its operands' configuration"; combined
with the deep copy in `TransformerBasis.__init__`, composing through the
transformer re-allocates every configuration record of both operands. -/
def composeVia (h : List Cfg) (a b : Obj) : List Cfg × Obj :=
  ((deepcopyObj (deepcopyObj h a).1 b).1,
   Obj.mk ((deepcopyObj h a).2.ids ++ (deepcopyObj (deepcopyObj h a).1 b).2.ids))

/-- `TransformerBasis.__add__` at the heap level. -/
def tbAdd (h : List Cfg) (a b : Obj) : List Cfg × Obj := composeVia h a b

/-- `TransformerBasis.__mul__` at the heap level. -/
def tbMul (h : List Cfg) (a b : Obj) : List Cfg × Obj := composeVia h a b

/-- `TransformerBasis.__pow__` at the heap level: `b ** 1` deep-copies the
basis; `b ** (k+1)` composes the running product with the basis again. -/
def tbPow (h : List Cfg) (a : Obj) : ℕ → List Cfg × Obj
  | 0 => deepcopyObj h a
  | 1 => deepcopyObj h a
  | k + 1 => composeVia (tbPow h a k).1 (tbPow h a k).2 a

/-- Mutating a basis object: overwrite the configuration record at one of
its addresses. -/
def heapWrite (h : List Cfg) (a : ℕ) (v : Cfg) : List Cfg := h.set a v

/-! ## Structured Feature Container (`FeaturePytree`) -/

/-- A Python value assigned into the container. -/
inductive PyObj where
  | array (shape : List ℕ)
  | string (s : String)
  | scalar (q : ℚ)
deriving DecidableEq

/-- Modelled from the spec: the Structured Feature Container `FeaturePytree`
(defined outside `src/`, in `nemos.pytrees`): a mapping from string keys to
array blocks that all share the same leading-axis length, kept at the shape
level. -/
structure FeaturePytree where
  entries : List (String × List ℕ)
deriving DecidableEq

/-- The shared leading-axis length (`len(tree)`). -/
def FeaturePytree.len (t : FeaturePytree) : ℕ :=
  ((t.entries.headD ("", [])).2).headD 0

/-- Modelled from the spec: `FeaturePytree.__setitem__` — "set validates
length and array-ness against existing entries"; a non-array value or an
array whose leading-axis length differs from the established length fails
with a `ValueError`, otherwise the key is appended (or overwritten).  The
first component of the result is the container after the call: on error it
is the unchanged input container. -/
def FeaturePytree.setItem (t : FeaturePytree) (k : String) (v : PyObj) :
    FeaturePytree × Option PyErr :=
  match v with
  | .array shape =>
      if t.entries ≠ [] ∧ shape.headD 0 ≠ t.len then
        (t, some (.pytreeLengthMismatch t.len (shape.headD 0)))
      else
        (FeaturePytree.mk ((t.entries.filter fun p => p.1 ≠ k) ++ [(k, shape)]), none)
  | _ => (t, some .pytreeNotArray)

/-! ## Helper lemmas -/

lemma getD_map_lt {α β : Type} (f : α → β) (xs : List α) (i : ℕ) (hi : i < xs.length)
    (d : β) (d0 : α) : (xs.map f).getD i d = f (xs.getD i d0) := by
  simp [List.getD_eq_getElem?_getD, List.getElem?_map, List.getElem?_eq_getElem hi]

lemma linear_peaks_eq (n j : ℕ) :
    RaisedCosineBasisLinear.computePeaks n j = specLinearPeak n j := by
  unfold RaisedCosineBasisLinear.computePeaks npLinspace specLinearPeak
  ring

lemma linear_entry_eq (n : ℕ) (w x : ℝ) (j : ℕ) :
    raisedCosineEntry (RaisedCosineBasisLinear.computePeaks n) w x j
      = specLinearEntry n w x j := by
  unfold raisedCosineEntry specLinearEntry
  rw [linear_peaks_eq, linear_peaks_eq, linear_peaks_eq]
  have hd : specLinearPeak n 1 - specLinearPeak n 0 = specLinearDelta n := by
    unfold specLinearPeak specLinearDelta
    norm_num
  rw [hd]

/-! ## Claims -/

/-- C1: for every valid `RaisedCosineBasisLinear` instance (`n_basis_funcs ≥ 2`,
valid width) and every 1-D sample array rescaled into `[0,1]`, the returned
basis matrix has entry `(i,j)` equal to
`0.5*(cos(clip(pi*(x_i - peak_j)/(delta*width), -pi, pi)) + 1)` where the
peaks are the `n_basis_funcs` evenly spaced points `j/(n-1)` in `[0,1]` and
`delta = 1/(n-1)` is the spacing between consecutive peaks (`x_i` is the
`i`-th rescaled sample). -/
theorem C1_linear_raised_cosine_entries (n : ℕ) (hn : 2 ≤ n) (w : ℝ) (hw : 1 < w)
    (bounds : ℝ × ℝ) (xs : List ℝ) (i j : ℕ) (hi : i < xs.length) (hj : j < n) :
    ((RaisedCosineBasisLinear.callMatrix n w bounds xs).getD i []).getD j 0
      = specLinearEntry n w (minMaxRescaleSamples bounds (xs.getD i 0)) j := by
  unfold RaisedCosineBasisLinear.callMatrix
  rw [getD_map_lt _ xs i hi _ 0]
  have hj' : j < (List.range n).length := by simpa using hj
  rw [getD_map_lt _ (List.range n) j hj' _ 0]
  have hr : (List.range n).getD j 0 = j := by
    simp [List.getD_eq_getElem?_getD, List.getElem?_range hj]
  rw [hr]
  unfold RaisedCosineBasisLinear.callEntry
  exact linear_entry_eq n w _ j

/-- Witness for C1 at a concrete instance. -/
theorem C1_witness :
    2 ≤ 3 ∧ (1 : ℝ) < 2 ∧ 0 < [(0.3 : ℝ)].length ∧ 1 < 3 ∧
    ((RaisedCosineBasisLinear.callMatrix 3 2 (0, 1) [(0.3 : ℝ)]).getD 0 []).getD 1 0
      = specLinearEntry 3 2 (minMaxRescaleSamples (0, 1) ([(0.3 : ℝ)].getD 0 0)) 1 :=
  ⟨by decide, one_lt_two, by decide, by decide,
    C1_linear_raised_cosine_entries 3 (by decide) 2 one_lt_two (0, 1) [(0.3 : ℝ)] 0 1
      (by decide) (by decide)⟩

lemma npClip_pi : npClip π (-π) π = π := by
  unfold npClip
  rw [max_eq_right (neg_le_self Real.pi_pos.le), min_self]

lemma log_peaks_eq (n : ℕ) (w : ℝ) (d : Bool) (j : ℕ) :
    RaisedCosineBasisLog.computePeaks n w d j
      = RaisedCosineBasisLog.lastPeak n w d * j / ((n : ℝ) - 1) := by
  unfold RaisedCosineBasisLog.computePeaks npLinspace
  ring

/-- C2: the peak locations of `RaisedCosineBasisLog` are the `n_basis_funcs`
evenly spaced points spanning `[0, last_peak]` (peak `j` is
`last_peak*j/(n-1)`, starting at `0`, ending at `last_peak`, with constant
spacing), where `last_peak = 1` when decay-to-zero is not requested and
`last_peak = 1 - width/(n_basis_funcs + width - 1)` when it is; in the
latter case the final bump evaluates to exactly `0` at the domain edge
(warped sample `1`). -/
theorem C2_log_peaks (n : ℕ) (hn : 2 ≤ n) (w : ℝ) (hw : 1 < w) :
    (∀ d j, RaisedCosineBasisLog.computePeaks n w d j
        = RaisedCosineBasisLog.lastPeak n w d * j / ((n : ℝ) - 1)) ∧
    (∀ d, RaisedCosineBasisLog.computePeaks n w d 0 = 0) ∧
    (∀ d, RaisedCosineBasisLog.computePeaks n w d (n - 1)
        = RaisedCosineBasisLog.lastPeak n w d) ∧
    (∀ d j, RaisedCosineBasisLog.computePeaks n w d (j + 1)
          - RaisedCosineBasisLog.computePeaks n w d j
        = RaisedCosineBasisLog.lastPeak n w d / ((n : ℝ) - 1)) ∧
    RaisedCosineBasisLog.lastPeak n w false = 1 ∧
    RaisedCosineBasisLog.lastPeak n w true = 1 - w / ((n : ℝ) + w - 1) ∧
    raisedCosineEntry (RaisedCosineBasisLog.computePeaks n w true) w 1 (n - 1) = 0 := by
  have hn2 : (2 : ℝ) ≤ (n : ℝ) := by exact_mod_cast hn
  have hn1 : ((n : ℝ) - 1) ≠ 0 := ne_of_gt (by linarith)
  have hnw : ((n : ℝ) + w - 1) ≠ 0 := ne_of_gt (by linarith)
  have hcast : ((n - 1 : ℕ) : ℝ) = (n : ℝ) - 1 := by
    have h1 : 1 ≤ n := le_trans one_le_two hn
    push_cast [Nat.cast_sub h1]
    ring
  refine ⟨log_peaks_eq n w, ?_, ?_, ?_, ?_, ?_, ?_⟩
  · intro d
    rw [log_peaks_eq]
    simp
  · intro d
    rw [log_peaks_eq, hcast, mul_div_assoc, div_self hn1, mul_one]
  · intro d j
    rw [log_peaks_eq, log_peaks_eq]
    push_cast
    field_simp
    ring
  · unfold RaisedCosineBasisLog.lastPeak
    simp
  · unfold RaisedCosineBasisLog.lastPeak
    simp
  · have hlpval : RaisedCosineBasisLog.lastPeak n w true
        = ((n : ℝ) - 1) / ((n : ℝ) + w - 1) := by
      unfold RaisedCosineBasisLog.lastPeak
      rw [if_pos rfl]
      field_simp
      ring
    have hlast : RaisedCosineBasisLog.computePeaks n w true (n - 1)
        = RaisedCosineBasisLog.lastPeak n w true := by
      rw [log_peaks_eq, hcast, mul_div_assoc, div_self hn1, mul_one]
    have hdelta : RaisedCosineBasisLog.computePeaks n w true 1
          - RaisedCosineBasisLog.computePeaks n w true 0
        = (1 : ℝ) / ((n : ℝ) + w - 1) := by
      rw [log_peaks_eq, log_peaks_eq, hlpval]
      push_cast
      field_simp
      ring
    have harg : π * (1 - RaisedCosineBasisLog.computePeaks n w true (n - 1))
          / ((RaisedCosineBasisLog.computePeaks n w true 1
              - RaisedCosineBasisLog.computePeaks n w true 0) * w) = π := by
      rw [hlast, hlpval, hdelta]
      have hw0 : w ≠ 0 := ne_of_gt (lt_trans one_pos hw)
      field_simp
    unfold raisedCosineEntry
    rw [harg, npClip_pi, Real.cos_pi]
    ring

/-- Witness for C2 at a concrete instance. -/
theorem C2_witness :
    2 ≤ 4 ∧ (1 : ℝ) < 2 ∧
    raisedCosineEntry (RaisedCosineBasisLog.computePeaks 4 2 true) 2 1 (4 - 1) = 0 :=
  ⟨by decide, one_lt_two, (C2_log_peaks 4 (by decide) 2 one_lt_two).2.2.2.2.2.2⟩

/-- C3: `RaisedCosineBasisLog` evaluation first rescales the samples to
`[0,1]` and then warps them via `log(time_scaling*x + 1)/log(time_scaling + 1)`
before applying the raised-cosine formula; constructing (or setting) the
basis with `time_scaling ≤ 0` fails with a parameter `ValueError` reporting
the value, while any `time_scaling > 0` is accepted. -/
theorem C3_log_transform_and_time_scaling :
    (∀ (ts : ℝ) (bounds : ℝ × ℝ) (x : ℝ),
      RaisedCosineBasisLog.transformSamples ts bounds x
        = specLogWarp ts (minMaxRescaleSamples bounds x)) ∧
    (∀ (n : ℕ) (w ts : ℝ) (d : Bool) (bounds : ℝ × ℝ) (x : ℝ) (j : ℕ),
      RaisedCosineBasisLog.callEntry n w ts d bounds x j
        = raisedCosineEntry (RaisedCosineBasisLog.computePeaks n w d) w
            (specLogWarp ts (minMaxRescaleSamples bounds x)) j) ∧
    (∀ ts : ℚ, checkTimeScaling ts = Except.error (.invalidTimeScaling ts) ↔ ts ≤ 0) ∧
    (∀ ts : ℚ, 0 < ts → checkTimeScaling ts = Except.ok ()) ∧
    (∀ ts : ℚ, (PyErr.invalidTimeScaling ts).kind = PyErrKind.valueError) := by
  refine ⟨fun ts bounds x => rfl, fun n w ts d bounds x j => rfl, ?_, ?_, fun ts => rfl⟩
  · intro ts
    unfold checkTimeScaling
    split_ifs with h
    · simp [h]
    · simp [h]
  · intro ts hts
    unfold checkTimeScaling
    rw [if_neg (not_le.mpr hts)]

/-- Witness for C3 at a concrete instance. -/
theorem C3_witness :
    (0 : ℚ) < 50 ∧ checkTimeScaling 50 = Except.ok () :=
  ⟨by positivity, C3_log_transform_and_time_scaling.2.2.2.1 50 (by positivity)⟩

lemma pyRound_intCast (k : ℤ) : pyRound (k : ℚ) = k := by
  unfold pyRound
  rw [Int.floor_intCast]
  norm_num

lemma npIsClose_true_iff (a b : ℚ) :
    npIsClose a b = true ↔ |a - b| ≤ 1 / 100000000 + 1 / 100000 * |b| := by
  unfold npIsClose
  rw [decide_eq_true_eq]

/-- C4 counterexample: a width strictly greater than `1` whose doubled value
is not an integer but lies within numpy's `isclose` tolerance of one — the
claim says such a width must be rejected, yet `_check_width` accepts it. -/
theorem C4_counterexample :
    (1 : ℚ) < 20000001 / 10000000 ∧
    (¬ ∃ k : ℤ, (2 * (20000001 / 10000000 : ℚ)) = (k : ℚ)) ∧
    checkWidth (20000001 / 10000000) = Except.ok () := by
  have h2w : (2 * (20000001 / 10000000 : ℚ)) = 20000001 / 5000000 := by norm_num
  have hfloor : ⌊(20000001 / 5000000 : ℚ)⌋ = 4 := by
    rw [Int.floor_eq_iff]
    constructor
    · norm_num
    · norm_num
  have hround : pyRound (2 * (20000001 / 10000000 : ℚ)) = 4 := by
    rw [h2w]
    unfold pyRound
    rw [hfloor]
    rw [if_pos (by norm_num)]
  have hclose : npIsClose ((20000001 / 10000000 : ℚ) * 2)
      ((pyRound (2 * (20000001 / 10000000 : ℚ)) : ℤ) : ℚ) = true := by
    rw [hround, npIsClose_true_iff]
    rw [abs_of_pos (show (0 : ℚ) < ((4 : ℤ) : ℚ) by norm_num)]
    rw [abs_of_pos
      (show (0 : ℚ) < (20000001 / 10000000 : ℚ) * 2 - ((4 : ℤ) : ℚ) by norm_num)]
    norm_num
  refine ⟨by norm_num, ?_, ?_⟩
  · rintro ⟨k, hk⟩
    have hkf : (4 : ℤ) = k := by
      rw [← hround, hk, pyRound_intCast]
    rw [← hkf] at hk
    norm_num at hk
  · unfold checkWidth
    rw [if_neg]
    push_neg
    refine ⟨by norm_num, ?_⟩
    rw [ne_eq, Bool.not_eq_false]
    exact hclose

/-- C4 amended: construction or width mutation fails with a `ValueError`
reporting the computed `2*width` iff `width ≤ 1` or `2*width` is not within
numpy's default `isclose` tolerance (`atol = 1e-8`, `rtol = 1e-5`) of its
Python rounding; in particular every `width ≤ 1` is rejected and every
`width > 1` with `2*width` exactly an integer is accepted. -/
theorem C4_amended (w : ℚ) :
    (checkWidth w = Except.ok () ↔
      (1 < w ∧ npIsClose (w * 2) ((pyRound (2 * w) : ℤ) : ℚ) = true)) ∧
    (∀ e, checkWidth w = Except.error e →
      e = PyErr.invalidWidth (2 * w) ∧ e.kind = PyErrKind.valueError) ∧
    (w ≤ 1 → checkWidth w = Except.error (.invalidWidth (2 * w))) ∧
    ((∃ k : ℤ, (2 * w : ℚ) = (k : ℚ)) → 1 < w → checkWidth w = Except.ok ()) ∧
    (∀ old : ℚ,
      (checkWidth w = Except.ok () → widthSet old w = (w, none)) ∧
      (∀ e, checkWidth w = Except.error e → widthSet old w = (old, some e))) := by
  have hok : checkWidth w = Except.ok () ↔
      (1 < w ∧ npIsClose (w * 2) ((pyRound (2 * w) : ℤ) : ℚ) = true) := by
    unfold checkWidth
    split_ifs with h
    · simp only [reduceCtorEq, false_iff]
      rintro ⟨hw1, hw2⟩
      rcases h with h | h
      · exact absurd hw1 (not_lt.mpr h)
      · rw [h] at hw2
        exact Bool.false_ne_true hw2
    · push_neg at h
      simp only [true_iff]
      refine ⟨h.1, ?_⟩
      cases hb : npIsClose (w * 2) ((pyRound (2 * w) : ℤ) : ℚ) with
      | false => exact absurd hb h.2
      | true => rfl
  refine ⟨hok, ?_, ?_, ?_, ?_⟩
  · intro e he
    unfold checkWidth at he
    by_cases h : (w ≤ 1 ∨ npIsClose (w * 2) ((pyRound (2 * w) : ℤ) : ℚ) = false)
    · rw [if_pos h] at he
      injection he with hee
      subst hee
      exact ⟨rfl, rfl⟩
    · rw [if_neg h] at he
      exact absurd he (by simp)
  · intro hw1
    unfold checkWidth
    rw [if_pos (Or.inl hw1)]
  · rintro ⟨k, hk⟩ hw1
    rw [hok]
    refine ⟨hw1, ?_⟩
    have hr : pyRound (2 * w) = k := by
      rw [hk, pyRound_intCast]
    rw [hr, npIsClose_true_iff]
    have : w * 2 = (k : ℚ) := by rw [← hk]; ring
    rw [this, sub_self, abs_zero]
    positivity
  · intro old
    constructor
    · intro h
      unfold widthSet
      rw [h]
    · intro e he
      unfold widthSet
      rw [he]

/-- Witness for the amended C4 at a concrete accepted width. -/
theorem C4_witness :
    (∃ k : ℤ, (2 * (3 / 2 : ℚ)) = (k : ℚ)) ∧ (1 : ℚ) < 3 / 2 ∧
    checkWidth (3 / 2) = Except.ok () :=
  ⟨⟨3, by norm_num⟩, by norm_num,
    (C4_amended (3 / 2)).2.2.2.1 ⟨3, by norm_num⟩ (by norm_num)⟩

lemma unpackGo_ok (nrows ncols : ℕ) (comps : List Component)
    (hcons : ∀ c ∈ comps, c.nInput = c.inputShape.prod) :
    ∀ cc, cc + (comps.map Component.nInput).sum ≤ ncols →
    ∃ outs, unpackGo nrows ncols cc comps = Except.ok outs := by
  induction comps with
  | nil => exact fun cc _ => ⟨[], rfl⟩
  | cons c rest ih =>
    intro cc hle
    simp only [List.map_cons, List.sum_cons] at hle
    have hc : c.nInput = c.inputShape.prod := hcons c (List.mem_cons_self _ _)
    have hmin : min c.nInput (ncols - cc) = c.nInput := min_eq_left (by omega)
    obtain ⟨outs, houts⟩ :=
      ih (fun x hx => hcons x (List.mem_cons_of_mem _ hx)) (cc + c.nInput) (by omega)
    refine ⟨PyArray.mk (nrows :: c.inputShape) :: outs, ?_⟩
    simp only [unpackGo]
    rw [hmin, if_pos (by rw [hc]), houts]
    rfl

lemma checkInitialized_ok (st : BasisState) (l : List Component)
    (hcomp : st.components = some l) : checkInitialized st = Except.ok () := by
  unfold checkInitialized
  rw [hcomp]

lemma unpackInputs_ok (st : BasisState) (l : List Component) (X : PyArray)
    (hcomp : st.components = some l)
    (hcons : ∀ c ∈ l, c.nInput = c.inputShape.prod)
    (hdim : X.ndim = 2) (hle : st.sumInputs ≤ X.cols) :
    ∃ outs, unpackInputs st X = Except.ok outs := by
  unfold unpackInputs
  rw [if_neg (by omega), hcomp]
  unfold BasisState.sumInputs at hle
  rw [hcomp] at hle
  exact unpackGo_ok X.rows X.cols l hcons 0 (by simpa using hle)

/-- C5 counterexample: an initialized transformer expecting 1 input column,
given a 2-D `X` with 2 columns — a column-count mismatch — is transformed
without any error (`transform` never calls `_check_input`, and the numpy
column slices silently drop the extra column). -/
theorem C5_counterexample :
    TransformerBasis.transform (BasisState.mk (some [Component.mk 1 [1]]) 5)
        (PyArray.mk [3, 2]) = Except.ok (PyArray.mk [3, 5]) ∧
    (PyArray.mk [3, 2]).cols ≠ (BasisState.mk (some [Component.mk 1 [1]]) 5).sumInputs :=
  ⟨rfl, by decide⟩

/-- C5 amended: `fit(X)` (and hence `fit_transform`) requires a 2-D `X`
whose column count equals the sum of remembered input widths, failing with a
`ValueError` naming the expected and actual column counts on mismatch and
with a `ValueError` naming the shape when `X` is not 2-D; `transform(X)`
performs no such validation — whenever the expected columns are available it
succeeds, silently ignoring any excess columns. -/
theorem C5_amended :
    (∀ (st : BasisState) (l : List Component) (X : PyArray) (y : Option PyArray),
      st.components = some l → X.ndim = 2 → X.cols ≠ st.sumInputs →
      TransformerBasis.fit st X y
          = Except.error (.columnMismatch st.sumInputs X.cols) ∧
      (PyErr.columnMismatch st.sumInputs X.cols).kind = PyErrKind.valueError) ∧
    (∀ (st : BasisState) (l : List Component) (X : PyArray) (y : Option PyArray),
      st.components = some l → X.ndim ≠ 2 →
      TransformerBasis.fit st X y = Except.error (.notTwoDimensional X.shape)) ∧
    (∀ (st : BasisState) (l : List Component) (X : PyArray),
      st.components = some l → (∀ c ∈ l, c.nInput = c.inputShape.prod) →
      X.ndim = 2 → X.cols = st.sumInputs →
      TransformerBasis.fit st X none = Except.ok st) ∧
    (∀ (st : BasisState) (l : List Component) (X : PyArray),
      st.components = some l → (∀ c ∈ l, c.nInput = c.inputShape.prod) →
      X.ndim = 2 → st.sumInputs ≤ X.cols →
      ∃ out, TransformerBasis.transform st X = Except.ok out) := by
  refine ⟨?_, ?_, ?_, ?_⟩
  · intro st l X y hcomp hdim hcols
    refine ⟨?_, rfl⟩
    unfold TransformerBasis.fit
    rw [checkInitialized_ok st l hcomp]
    unfold checkInput
    rw [if_neg (by simp [hdim]), if_pos hcols]
    rfl
  · intro st l X y hcomp hdim
    unfold TransformerBasis.fit
    rw [checkInitialized_ok st l hcomp]
    unfold checkInput
    rw [if_pos hdim]
    rfl
  · intro st l X hcomp hcons hdim hcols
    obtain ⟨outs, houts⟩ :=
      unpackInputs_ok st l X hcomp hcons hdim (le_of_eq hcols.symm)
    unfold TransformerBasis.fit
    rw [checkInitialized_ok st l hcomp]
    unfold checkInput
    rw [if_neg (by simp [hdim]), if_neg (by simp [hcols]), houts]
    rfl
  · intro st l X hcomp hcons hdim hle
    obtain ⟨outs, houts⟩ := unpackInputs_ok st l X hcomp hcons hdim hle
    refine ⟨computeFeatures st outs, ?_⟩
    unfold TransformerBasis.transform
    rw [checkInitialized_ok st l hcomp, houts]
    rfl

/-- Witness for the amended C5 at a concrete instance. -/
theorem C5_witness :
    TransformerBasis.fit (BasisState.mk (some [Component.mk 1 [1]]) 5)
        (PyArray.mk [3, 1]) none
      = Except.ok (BasisState.mk (some [Component.mk 1 [1]]) 5) :=
  C5_amended.2.2.1 (BasisState.mk (some [Component.mk 1 [1]]) 5) [Component.mk 1 [1]]
    (PyArray.mk [3, 1]) rfl (by decide) rfl (by decide)

/-- C6: calling `fit`, `transform`, or `fit_transform` on a transformer
whose wrapped basis has no established input shape fails with a
`RuntimeError` whose message directs the caller to call `set_input_shape`,
and no features are computed. -/
theorem C6_uninitialized (st : BasisState) (X : PyArray) (y : Option PyArray)
    (hcomp : st.components = none) :
    TransformerBasis.fit st X y = Except.error PyErr.notInitialized ∧
    TransformerBasis.transform st X = Except.error PyErr.notInitialized ∧
    TransformerBasis.fitTransform st X y = Except.error PyErr.notInitialized ∧
    PyErr.notInitialized.kind = PyErrKind.runtimeError ∧
    PyErr.notInitialized.mentionsSetInputShape = true := by
  have h1 : checkInitialized st = Except.error PyErr.notInitialized := by
    unfold checkInitialized
    rw [hcomp]
  have hf : TransformerBasis.fit st X y = Except.error PyErr.notInitialized := by
    unfold TransformerBasis.fit
    rw [h1]
    rfl
  refine ⟨hf, ?_, ?_, rfl, by decide⟩
  · unfold TransformerBasis.transform
    rw [h1]
    rfl
  · unfold TransformerBasis.fitTransform
    rw [hf]
    rfl

/-- Witness for C6 at a concrete uninitialized state. -/
theorem C6_witness :
    (BasisState.mk none 0).components = none ∧
    TransformerBasis.fit (BasisState.mk none 0) (PyArray.mk [3, 1]) none
      = Except.error PyErr.notInitialized :=
  ⟨rfl, (C6_uninitialized (BasisState.mk none 0) (PyArray.mk [3, 1]) none rfl).1⟩

/-- C10 (code bug): with a column-valid `X` of 3 samples and a `y` of 2
samples, `fit` reaches the intended `ValueError` branch for mismatched
sample counts, but evaluating the message f-string accesses `X.shpae`
(a typo for `X.shape`), so an `AttributeError` — not the documented
`ValueError` — is raised. -/
theorem C10_sample_mismatch_bug :
    TransformerBasis.fit (BasisState.mk (some [Component.mk 1 [1]]) 5)
        (PyArray.mk [3, 1]) (some (PyArray.mk [2]))
      = Except.error (PyErr.missingAttribute "shpae") ∧
    (PyErr.missingAttribute "shpae").kind = PyErrKind.attributeError ∧
    PyErrKind.attributeError ≠ PyErrKind.valueError :=
  ⟨rfl, rfl, by decide⟩

lemma powTree_succ (b : BasisTree) (k : ℕ) (hk : 1 ≤ k) :
    b.powTree (k + 1) = BasisTree.mul (b.powTree k) b := by
  cases k with
  | zero => exact absurd hk (by decide)
  | succ m => rfl

lemma powTree_nOut (b : BasisTree) (k : ℕ) (hk : 1 ≤ k) :
    (b.powTree k).nOut = b.nOut ^ k := by
  induction k, hk using Nat.le_induction with
  | base =>
    rw [pow_one]
    exact rfl
  | succ n hn ih =>
    rw [powTree_succ b n hn, pow_succ]
    simp [BasisTree.nOut, ih]

lemma powTree_arity (b : BasisTree) (k : ℕ) (hk : 1 ≤ k) :
    (b.powTree k).arity = k * b.arity := by
  induction k, hk using Nat.le_induction with
  | base =>
    rw [one_mul]
    exact rfl
  | succ n hn ih =>
    rw [powTree_succ b n hn]
    simp only [BasisTree.arity, ih]
    ring

/-- C7: for every basis `b` and positive integer `k`, `b ** k` is the
`k`-fold product of `b` with itself (so its basis count is `nOut(b)^k` and
its input arity is `k * arity(b)`; in particular `b ** 1` is `b` itself,
hence produces the same outputs); exponentiating by a non-integer fails with
a `TypeError`, and by an integer `< 1` with a `ValueError`, both through
`TransformerBasis.__pow__` as well. -/
theorem C7_pow :
    (∀ (b : BasisTree) (k : ℤ), 1 ≤ k →
      basisPow b (.int k) = Except.ok (b.powTree k.toNat) ∧
      TB.pow (TB.mk b) (.int k) = Except.ok (TB.mk (b.powTree k.toNat)) ∧
      (b.powTree k.toNat).nOut = b.nOut ^ k.toNat ∧
      (b.powTree k.toNat).arity = k.toNat * b.arity) ∧
    (∀ b : BasisTree, b.powTree 1 = b ∧
      TB.pow (TB.mk b) (.int 1) = Except.ok (TB.mk b)) ∧
    (∀ (b : BasisTree) (k : ℕ), 1 ≤ k →
      b.powTree (k + 1) = BasisTree.mul (b.powTree k) b) ∧
    (∀ (b : BasisTree) (q : ℚ),
      TB.pow (TB.mk b) (.float q) = Except.error PyErr.exponentTypeError) ∧
    (∀ (b : BasisTree) (s : String),
      TB.pow (TB.mk b) (.str s) = Except.error PyErr.exponentTypeError) ∧
    PyErr.exponentTypeError.kind = PyErrKind.typeError ∧
    (∀ (b : BasisTree) (k : ℤ), k < 1 →
      TB.pow (TB.mk b) (.int k) = Except.error (.exponentValueError k) ∧
      (PyErr.exponentValueError k).kind = PyErrKind.valueError) := by
  have hok : ∀ (b : BasisTree) (k : ℤ), 1 ≤ k →
      basisPow b (.int k) = Except.ok (b.powTree k.toNat) := by
    intro b k hk
    simp only [basisPow]
    rw [if_neg (not_lt.mpr hk)]
  have htn : ∀ k : ℤ, 1 ≤ k → 1 ≤ k.toNat := fun k hk => by omega
  refine ⟨?_, ?_, powTree_succ, fun b q => rfl, fun b s => rfl, rfl, ?_⟩
  · intro b k hk
    refine ⟨hok b k hk, ?_, powTree_nOut b k.toNat (htn k hk),
      powTree_arity b k.toNat (htn k hk)⟩
    unfold TB.pow
    rw [hok b k hk]
    rfl
  · intro b
    refine ⟨rfl, ?_⟩
    unfold TB.pow
    rw [hok b 1 le_rfl]
    rfl
  · intro b k hk
    refine ⟨?_, rfl⟩
    unfold TB.pow
    simp only [basisPow]
    rw [if_pos hk]
    rfl

/-- Witness for C7 at a concrete instance. -/
theorem C7_witness :
    (1 : ℤ) ≤ 2 ∧
    basisPow (BasisTree.leaf 0 5) (.int 2)
      = Except.ok ((BasisTree.leaf 0 5).powTree 2) :=
  ⟨by decide, (C7_pow.1 (BasisTree.leaf 0 5) 2 (by decide)).1⟩

/-- The invariant produced by an allocating operation: the heap is only
extended, and the returned object's addresses are all fresh (at or beyond
the old heap length) and valid in the new heap. -/
def FreshSpec (h : List Cfg) (res : List Cfg × Obj) : Prop :=
  (∃ ext, res.1 = h ++ ext) ∧
  (∀ j ∈ res.2.ids, h.length ≤ j ∧ j < res.1.length)

lemma allocCopies_spec (ids : List ℕ) : ∀ h : List Cfg,
    (∃ ext, (allocCopies h ids).1 = h ++ ext) ∧
    (∀ j ∈ (allocCopies h ids).2, h.length ≤ j ∧ j < (allocCopies h ids).1.length) := by
  induction ids with
  | nil => exact fun h => ⟨⟨[], by simp [allocCopies]⟩, by simp [allocCopies]⟩
  | cons a rest ih =>
    intro h
    obtain ⟨⟨ext, hext⟩, hmem⟩ := ih (h ++ [h.getD a (Cfg.mk 0 0 "")])
    constructor
    · refine ⟨h.getD a (Cfg.mk 0 0 "") :: ext, ?_⟩
      simp only [allocCopies]
      rw [hext]
      simp
    · intro j hj
      simp only [allocCopies, List.mem_cons] at hj
      rcases hj with rfl | hj
      · refine ⟨le_refl _, ?_⟩
        simp only [allocCopies]
        rw [hext]
        simp only [List.length_append, List.length_cons, List.length_nil]
        omega
      · have hm := hmem j hj
        simp only [List.length_append, List.length_cons, List.length_nil] at hm
        exact ⟨by omega, by simpa only [allocCopies] using hm.2⟩

lemma deepcopyObj_spec (h : List Cfg) (o : Obj) : FreshSpec h (deepcopyObj h o) := by
  unfold FreshSpec deepcopyObj
  exact allocCopies_spec o.ids h

lemma composeVia_spec (h : List Cfg) (a b : Obj) : FreshSpec h (composeVia h a b) := by
  obtain ⟨⟨e1, he1⟩, hm1⟩ := deepcopyObj_spec h a
  obtain ⟨⟨e2, he2⟩, hm2⟩ := deepcopyObj_spec (deepcopyObj h a).1 b
  constructor
  · refine ⟨e1 ++ e2, ?_⟩
    unfold composeVia
    rw [he2, he1, List.append_assoc]
  · intro j hj
    unfold composeVia at hj
    simp only [List.mem_append] at hj
    have hlen1 : h.length ≤ (deepcopyObj h a).1.length := by
      rw [he1]
      simp
    have hlen2 : (deepcopyObj h a).1.length ≤ (deepcopyObj (deepcopyObj h a).1 b).1.length := by
      rw [he2]
      simp
    rcases hj with hj | hj
    · have hm := hm1 j hj
      exact ⟨hm.1, by
        show j < (deepcopyObj (deepcopyObj h a).1 b).1.length
        omega⟩
    · have hm := hm2 j hj
      exact ⟨le_trans hlen1 hm.1, hm.2⟩

lemma tbPow_succ_eq (h : List Cfg) (a : Obj) (k : ℕ) (hk : 1 ≤ k) :
    tbPow h a (k + 1) = composeVia (tbPow h a k).1 (tbPow h a k).2 a := by
  cases k with
  | zero => exact absurd hk (by decide)
  | succ m => rfl

lemma tbPow_spec (h : List Cfg) (a : Obj) (k : ℕ) (hk : 1 ≤ k) :
    FreshSpec h (tbPow h a k) := by
  induction k, hk using Nat.le_induction with
  | base => exact deepcopyObj_spec h a
  | succ n hn ih =>
    obtain ⟨⟨e1, he1⟩, hm1⟩ := ih
    obtain ⟨⟨e2, he2⟩, hm2⟩ := composeVia_spec (tbPow h a n).1 (tbPow h a n).2 a
    rw [tbPow_succ_eq h a n hn]
    constructor
    · exact ⟨e1 ++ e2, by rw [he2, he1, List.append_assoc]⟩
    · intro j hj
      have hm := hm2 j hj
      have hlen1 : h.length ≤ (tbPow h a n).1.length := by
        rw [he1]
        simp
      exact ⟨le_trans hlen1 hm.1, hm.2⟩

lemma frame_of_spec (h : List Cfg) (res : List Cfg × Obj) (hspec : FreshSpec h res) :
    (∀ i, i < h.length → res.1[i]? = h[i]?) ∧
    (∀ j ∈ res.2.ids, h.length ≤ j) ∧
    (∀ j ∈ res.2.ids, ∀ v : Cfg, ∀ i, i < h.length →
      (heapWrite res.1 j v)[i]? = h[i]?) := by
  obtain ⟨⟨ext, hext⟩, hmem⟩ := hspec
  have hread : ∀ i, i < h.length → res.1[i]? = h[i]? := by
    intro i hi
    rw [hext, List.getElem?_append, if_pos hi]
  refine ⟨hread, fun j hj => (hmem j hj).1, ?_⟩
  intro j hj v i hi
  have hne : j ≠ i := by
    have := (hmem j hj).1
    omega
  unfold heapWrite
  rw [List.getElem?_set_ne hne]
  exact hread i hi

/-- C8: composing two basis objects with `+`, `*`, or `**` leaves every
configuration record of both operands unchanged, and the resulting
composite's configuration addresses are entirely fresh (disjoint from the
operands'), so mutating any configuration record owned by the composite
never changes what is read through the operands' addresses — as forced by
the deep copy in `TransformerBasis.__init__`. -/
theorem C8_composition_frame (h : List Cfg) (a b : Obj)
    (ha : ∀ i ∈ a.ids, i < h.length) (hb : ∀ i ∈ b.ids, i < h.length) :
    ((∀ i, i < h.length → (tbAdd h a b).1[i]? = h[i]?) ∧
     (∀ j ∈ (tbAdd h a b).2.ids, ∀ i ∈ a.ids ++ b.ids, j ≠ i) ∧
     (∀ j ∈ (tbAdd h a b).2.ids, ∀ v : Cfg, ∀ i ∈ a.ids ++ b.ids,
        (heapWrite (tbAdd h a b).1 j v)[i]? = h[i]?)) ∧
    ((∀ i, i < h.length → (tbMul h a b).1[i]? = h[i]?) ∧
     (∀ j ∈ (tbMul h a b).2.ids, ∀ v : Cfg, ∀ i ∈ a.ids ++ b.ids,
        (heapWrite (tbMul h a b).1 j v)[i]? = h[i]?)) ∧
    (∀ k : ℕ, 1 ≤ k →
      (∀ i, i < h.length → (tbPow h a k).1[i]? = h[i]?) ∧
      (∀ j ∈ (tbPow h a k).2.ids, ∀ v : Cfg, ∀ i ∈ a.ids,
        (heapWrite (tbPow h a k).1 j v)[i]? = h[i]?)) := by
  have hab : ∀ i ∈ a.ids ++ b.ids, i < h.length := by
    intro i hi
    rcases List.mem_append.mp hi with hi | hi
    · exact ha i hi
    · exact hb i hi
  obtain ⟨hr, hfresh, hw⟩ := frame_of_spec h (composeVia h a b) (composeVia_spec h a b)
  refine ⟨⟨hr, ?_, ?_⟩, ⟨hr, ?_⟩, ?_⟩
  · intro j hj i hi
    have := hfresh j hj
    have := hab i hi
    omega
  · intro j hj v i hi
    exact hw j hj v i (hab i hi)
  · intro j hj v i hi
    exact hw j hj v i (hab i hi)
  · intro k hk
    obtain ⟨hr2, hfresh2, hw2⟩ := frame_of_spec h (tbPow h a k) (tbPow_spec h a k hk)
    exact ⟨hr2, fun j hj v i hi => hw2 j hj v i (ha i hi)⟩

/-- Witness for C8 at a concrete heap and operands. -/
theorem C8_witness :
    (∀ i ∈ (Obj.mk [0]).ids, i < [Cfg.mk 5 2 "x"].length) ∧
    (∀ i, i < [Cfg.mk 5 2 "x"].length →
      (tbAdd [Cfg.mk 5 2 "x"] (Obj.mk [0]) (Obj.mk [0])).1[i]?
        = [Cfg.mk 5 2 "x"][i]?) :=
  ⟨by simp, (C8_composition_frame [Cfg.mk 5 2 "x"] (Obj.mk [0]) (Obj.mk [0])
    (by simp) (by simp)).1.1⟩

/-- C9: assigning a new key into the Structured Feature Container fails with
a `ValueError` when the value's leading-axis length differs from the
container's established length, and with a `ValueError` when the value is
not an array; in both cases the error is produced at the point of
assignment and the returned container is the unchanged original. -/
theorem C9_pytree_setitem (t : FeaturePytree) (k : String) :
    (∀ shape : List ℕ, t.entries ≠ [] → shape.headD 0 ≠ t.len →
      FeaturePytree.setItem t k (.array shape)
        = (t, some (.pytreeLengthMismatch t.len (shape.headD 0))) ∧
      (PyErr.pytreeLengthMismatch t.len (shape.headD 0)).kind = PyErrKind.valueError) ∧
    (∀ s, FeaturePytree.setItem t k (.string s) = (t, some PyErr.pytreeNotArray)) ∧
    (∀ q, FeaturePytree.setItem t k (.scalar q) = (t, some PyErr.pytreeNotArray)) ∧
    PyErr.pytreeNotArray.kind = PyErrKind.valueError := by
  refine ⟨?_, fun s => rfl, fun q => rfl, rfl⟩
  intro shape hne hlen
  refine ⟨?_, rfl⟩
  simp only [FeaturePytree.setItem]
  rw [if_pos ⟨hne, hlen⟩]

/-- Witness for C9: a container with two keys of leading length 100 rejects
a third key of leading length 99, returning the container unchanged. -/
theorem C9_witness :
    (FeaturePytree.mk [("a", [100, 2]), ("b", [100, 3])]).entries ≠ [] ∧
    ([99, 2, 4] : List ℕ).headD 0
      ≠ (FeaturePytree.mk [("a", [100, 2]), ("b", [100, 3])]).len ∧
    FeaturePytree.setItem (FeaturePytree.mk [("a", [100, 2]), ("b", [100, 3])]) "c"
        (.array [99, 2, 4])
      = (FeaturePytree.mk [("a", [100, 2]), ("b", [100, 3])],
         some (.pytreeLengthMismatch
           (FeaturePytree.mk [("a", [100, 2]), ("b", [100, 3])]).len 99)) :=
  ⟨by decide, by decide,
    ((C9_pytree_setitem (FeaturePytree.mk [("a", [100, 2]), ("b", [100, 3])]) "c").1
      [99, 2, 4] (by decide) (by decide)).1⟩

